import Mathlib

/-!
Verification of the Instagram downloader service (`src/main.py`).

The development shallowly embeds the text-processing helpers
(`_normalize_instagram_input`, `_is_valid_instagram_url`, title
sanitization from `_download_instagram_media`, `_zip_media`) and the
request pipeline (`_download_and_respond`, `_get_r2_config`,
`_upload_to_r2`) as executable Lean functions over `List Char` / `String`.

Python strings are modelled as lists of unicode scalar values
(`List Char`).  `urllib.parse.unquote` is modelled with its real
algorithm: percent-escapes inside maximal ASCII chunks are decoded to
bytes and the byte run is decoded as UTF-8 with replacement; the model
replaces one byte per invalid sequence where CPython may consume a
maximal subpart — no theorem below exercises that corner.  `str.strip`,
`\s` and `re.IGNORECASE` are modelled over the ASCII range used by the
program's patterns.
-/

namespace IGDL

/-- ASCII whitespace as used by `str.strip()` / regex `\s` (the model
restricts to the ASCII range). -/
def pySpace (c : Char) : Bool :=
  c == ' ' || c == '\t' || c == '\n' || c == '\x0d' || c == '\x0b' || c == '\x0c'

/-- Characters allowed by the sanitizer character class `[a-zA-Z0-9._-]`. -/
def allowedChar (c : Char) : Bool :=
  c.isAlpha || c.isDigit || c == '.' || c == '_' || c == '-'

/-- Lower-casing used to model `re.IGNORECASE` (ASCII range). -/
def lowerC (c : Char) : Char := c.toLower

/-- Value of a hexadecimal digit, as accepted by `unquote`'s `%XX` escapes. -/
def hexVal (c : Char) : Option Nat :=
  if c.isDigit then some (c.toNat - 48)
  else if 'a' ≤ c && c ≤ 'f' then some (c.toNat - 87)
  else if 'A' ≤ c && c ≤ 'F' then some (c.toNat - 55)
  else none

/-- `str.strip(chars)` generalized over a character predicate:
drop matching characters from both ends. -/
def pyStripP (p : Char → Bool) (l : List Char) : List Char :=
  ((l.dropWhile p).reverse.dropWhile p).reverse

/-- `str.strip()` (whitespace at both ends). -/
def pyStrip (l : List Char) : List Char := pyStripP pySpace l

/-- `str.rstrip("/")`: drop trailing slashes. -/
def pyRstripSlash (l : List Char) : List Char :=
  (l.reverse.dropWhile (fun c => c == '/')).reverse

/-- `str.lower()` (ASCII range). -/
def pyLower (l : List Char) : List Char := l.map lowerC

def isAsciiC (c : Char) : Bool := c.toNat < 128

/-- One step of `unquote`'s intermediate stream: an ASCII byte (literal
ASCII character or a decoded `%XX` escape) or a non-ASCII character that
passes through unchanged. -/
inductive UQTok
  | byte (b : Nat)
  | raw (c : Char)
deriving DecidableEq

/-- The token a character outside a `%XX` escape maps to. -/
def plainTok (c : Char) : UQTok :=
  if isAsciiC c then UQTok.byte c.toNat else UQTok.raw c

/-- Tokenize the input for `unquote`, following
`urllib.parse.unquote_to_bytes`: `%XX` with two hex digits becomes the
byte `XX`, a `%` not followed by two hex digits stays a literal `%` byte,
other ASCII characters become their byte, non-ASCII characters pass
through (they delimit the ASCII chunks CPython splits on). -/
def uqTokensF : Nat → List Char → List UQTok
  | 0, _ => []
  | _ + 1, [] => []
  | f + 1, c :: rest =>
    if c = '%' then
      match rest with
      | h1 :: h2 :: rest2 =>
        match hexVal h1, hexVal h2 with
        | some a, some b => UQTok.byte (16 * a + b) :: uqTokensF f rest2
        | _, _ => UQTok.byte '%'.toNat :: uqTokensF f rest
      | _ => UQTok.byte '%'.toNat :: uqTokensF f rest
    else plainTok c :: uqTokensF f rest

/-- Token stream of a whole input (`fuel = length` suffices: every step
consumes at least one character). -/
def uqTokens (l : List Char) : List UQTok := uqTokensF l.length l

/-- The replacement character U+FFFD produced by `errors="replace"`. -/
def replChar : Char := Char.ofNat 0xFFFD

def contByte (b : Nat) : Bool := 0x80 ≤ b && b < 0xC0

/-- UTF-8 decoding with replacement (`bytes.decode("utf-8", "replace")`)
over the token stream: valid byte sequences (with the standard
overlong/surrogate/range exclusions) decode to their scalar value; an
invalid lead, a truncated sequence, or a sequence interrupted by a
pass-through character yields a replacement character for the offending
byte.  `fuel` only forces structural recursion: every step consumes at
least one token, so `fuel = length` never runs out. -/
def decodeToks : Nat → List UQTok → List Char
  | 0, _ => []
  | _ + 1, [] => []
  | f + 1, UQTok.raw c :: rest => c :: decodeToks f rest
  | f + 1, UQTok.byte b :: rest =>
    if b < 0x80 then Char.ofNat b :: decodeToks f rest
    else if b < 0xC2 then replChar :: decodeToks f rest
    else if b < 0xE0 then
      match rest with
      | UQTok.byte b2 :: rest2 =>
        if contByte b2 then
          Char.ofNat ((b - 0xC0) * 64 + (b2 - 0x80)) :: decodeToks f rest2
        else replChar :: decodeToks f rest
      | _ => replChar :: decodeToks f rest
    else if b < 0xF0 then
      match rest with
      | UQTok.byte b2 :: UQTok.byte b3 :: rest3 =>
        if (contByte b2 && (b != 0xE0 || 0xA0 ≤ b2) && (b != 0xED || b2 < 0xA0))
            && contByte b3 then
          Char.ofNat ((b - 0xE0) * 4096 + (b2 - 0x80) * 64 + (b3 - 0x80)) ::
            decodeToks f rest3
        else replChar :: decodeToks f rest
      | _ => replChar :: decodeToks f rest
    else if b < 0xF5 then
      match rest with
      | UQTok.byte b2 :: UQTok.byte b3 :: UQTok.byte b4 :: rest4 =>
        if (contByte b2 && (b != 0xF0 || 0x90 ≤ b2) && (b != 0xF4 || b2 < 0x90))
            && contByte b3 && contByte b4 then
          Char.ofNat ((b - 0xF0) * 262144 + (b2 - 0x80) * 4096 +
              (b3 - 0x80) * 64 + (b4 - 0x80)) :: decodeToks f rest4
        else replChar :: decodeToks f rest
      | _ => replChar :: decodeToks f rest
    else replChar :: decodeToks f rest

/-- `urllib.parse.unquote(s, "utf-8", "replace")`. -/
def pyUnquote (l : List Char) : List Char :=
  decodeToks (uqTokens l).length (uqTokens l)

/-- The four concrete (lower-cased) shapes the pattern
`https?://(?:www\.)?instagram\.com/` can take. -/
def igLit (s : Bool) (w : Bool) : List Char :=
  ("http".data ++ (if s then ['s'] else []) ++ "://".data ++
    (if w then "www.".data else []) ++ "instagram.com/".data)

/-- Length of the host pattern matched at the head of `l` (case-insensitive),
if any.  The four alternatives are mutually exclusive, so at most one
matches. -/
def hostPatternLen (l : List Char) : Option Nat :=
  let low := pyLower l
  if (igLit true true).isPrefixOf low then some (igLit true true).length
  else if (igLit true false).isPrefixOf low then some (igLit true false).length
  else if (igLit false true).isPrefixOf low then some (igLit false true).length
  else if (igLit false false).isPrefixOf low then some (igLit false false).length
  else none

/-- Attempt of `https?://(?:www\.)?instagram\.com/[^\s]+` anchored at the
head of `l`: the host pattern followed by a non-empty maximal run of
non-whitespace characters. -/
def igMatchAt (l : List Char) : Option (List Char) :=
  match hostPatternLen l with
  | some k =>
    let run := (l.drop k).takeWhile (fun c => !pySpace c)
    if run = [] then none else some (l.take k ++ run)
  | none => none

/-- `re.search` of the pattern: leftmost successful anchored attempt. -/
def igSearch : List Char → Option (List Char)
  | [] => none
  | c :: rest =>
    match igMatchAt (c :: rest) with
    | some m => some m
    | none => igSearch rest

/-- `_normalize_instagram_input` (src/main.py:39-42): strip, percent-decode,
then extract the first embedded Instagram URL if one occurs, else pass the
candidate through. -/
def normalize_instagram_input (raw : List Char) : List Char :=
  let candidate := pyUnquote (pyStrip raw)
  match igSearch candidate with
  | some m => m
  | none => candidate

/-- String-level wrapper of the normalizer. -/
def normalizeStr (s : String) : String := ⟨normalize_instagram_input s.data⟩

/-- `_is_valid_instagram_url` (src/main.py:45-46):
`re.match(r"^https?://(www\.)?instagram\.com/.+", url.strip(), re.IGNORECASE)`.
`.+` needs one character after the host pattern and `.` excludes `\n`. -/
def is_valid_instagram_url (url : List Char) : Bool :=
  let s := pyStrip url
  match hostPatternLen s with
  | some k =>
    match s.drop k with
    | [] => false
    | c :: _ => c != '\n'
  | none => false

/-- String-level wrapper of the validator. -/
def isValidStr (s : String) : Bool := is_valid_instagram_url s.data

example : normalizeStr "  https://www.instagram.com/reel/abc " =
    "https://www.instagram.com/reel/abc" := by decide

example : normalizeStr "check this https://instagram.com/p/xyz out" =
    "https://instagram.com/p/xyz" := by decide

example : normalizeStr "https%3A%2F%2Finstagram.com%2Fp%2Fabc" =
    "https://instagram.com/p/abc" := by decide

example : normalizeStr "hello world" = "hello world" := by decide

example : isValidStr "https://instagram.com/p/abc" = true := by decide

example : isValidStr "https://instagram.com/" = false := by decide

example : isValidStr "http://example.com/p" = false := by decide

example : normalizeStr "https://instagram.com/p/%2541" =
    "https://instagram.com/p/%41" := by decide

example : normalizeStr "https://instagram.com/p/%41" =
    "https://instagram.com/p/A" := by decide

/-! ### Title sanitization (`_download_instagram_media`, src/main.py:73-76)

`re.sub(r"[^a-zA-Z0-9._-]+", "_", info.get("title") or "instagram_media").strip("_")`:
each maximal run of disallowed characters collapses to one `_`, then
leading/trailing underscores are stripped.  The `or` fallback fires only
for a missing or empty title (Python falsiness), not for whitespace-only
titles. -/

mutual

/-- `re.sub(r"[^a-zA-Z0-9._-]+", "_", s)`: copy allowed characters,
replace each maximal disallowed run by a single `_`. -/
def collapseRuns : List Char → List Char
  | [] => []
  | c :: rest =>
    if allowedChar c then c :: collapseRuns rest else '_' :: skipRun rest

/-- Consume the remainder of a disallowed run (its `_` is already emitted). -/
def skipRun : List Char → List Char
  | [] => []
  | c :: rest =>
    if allowedChar c then c :: collapseRuns rest else skipRun rest

end

/-- Default title used when `info.get("title")` is `None` or `""`. -/
def defaultTitle : List Char := "instagram_media".data

/-- The title value `re.sub` is applied to: `info.get("title") or
"instagram_media"`. -/
def effectiveTitle (raw : Option (List Char)) : List Char :=
  match raw with
  | none => defaultTitle
  | some s => if s = [] then defaultTitle else s

/-- The sanitized title: collapse disallowed runs then `strip("_")`. -/
def sanitizeTitle (raw : Option (List Char)) : List Char :=
  pyStripP (fun c => c == '_') (collapseRuns (effectiveTitle raw))

/-- String-level wrapper of the sanitizer (`none` models a missing title). -/
def sanitizeTitleStr (raw : Option String) : String :=
  ⟨sanitizeTitle (raw.map String.data)⟩

example : sanitizeTitleStr (some "My Reel! #1") = "My_Reel_1" := by decide

example : sanitizeTitleStr none = "instagram_media" := by decide

example : sanitizeTitleStr (some "") = "instagram_media" := by decide

example : sanitizeTitleStr (some "   ") = "" := by decide

/-! ### `pathlib` fragment and `_zip_media` (src/main.py:81-87)

A `Path` is modelled as a parent directory plus a final name, both opaque
strings.  `_zip_media` computes the archive path as
`first.with_suffix(first.suffix + ".zip")`, stores every input under its
base name (`arcname=file_path.name`) and uses `ZIP_DEFLATED`. -/

/-- A filesystem path: parent directory and final component. -/
structure PyPath where
  parent : String
  name : String
deriving DecidableEq

/-- Index of the last `'.'` in `l`, if any. -/
def lastDotIdx (l : List Char) : Option Nat :=
  (List.range l.length).foldl
    (fun acc i => if l.get? i = some '.' then some i else acc) none

/-- `PurePath.suffix` on the final component: the part from the last dot,
unless that dot is the first or last character. -/
def pySuffix (name : List Char) : List Char :=
  match lastDotIdx name with
  | some i => if 0 < i && i + 1 < name.length then name.drop i else []
  | none => []

/-- `PurePath.with_suffix` on the final component: drop the old suffix (if
any) and append the new one.  (The `ValueError` guard never fires for the
suffixes `_zip_media` builds, which always start with `.` and are not `.`.) -/
def pyWithSuffixName (name newSuffix : List Char) : List Char :=
  let old := pySuffix name
  if old = [] then name ++ newSuffix
  else name.take (name.length - old.length) ++ newSuffix

/-- `Path.suffix` lifted to `PyPath`. -/
def PyPath.suffix (p : PyPath) : String := ⟨pySuffix p.name.data⟩

/-- The compression argument passed to `zipfile.ZipFile`. -/
inductive ZipCompression
  | deflated
  | stored
deriving DecidableEq

/-- Result of `_zip_media`: the archive path, the archive member names in
order, and the compression mode. -/
structure ZipResult where
  path : PyPath
  members : List String
  compression : ZipCompression
deriving DecidableEq

/-- `_zip_media(file_paths)` with `file_paths = first :: rest` (the source
indexes `file_paths[0]`, so the list is non-empty at every call site):
`zip_path = first.with_suffix(first.suffix + ".zip")`, one member per
input file under `arcname=file_path.name`, `ZIP_DEFLATED`. -/
def zip_media (first : PyPath) (rest : List PyPath) : ZipResult :=
  { path := { parent := first.parent
              name := ⟨pyWithSuffixName first.name.data
                        (pySuffix first.name.data ++ ".zip".data)⟩ }
    members := (first :: rest).map PyPath.name
    compression := ZipCompression.deflated }

example :
    (zip_media { parent := "/tmp/ig_dl_x", name := "video.mp4" } []).path =
      { parent := "/tmp/ig_dl_x", name := "video.mp4.zip" } := by decide

example :
    (zip_media { parent := "/t", name := "noext" } []).path.name =
      "noext.zip" := by decide

/-! ### Environment and request pipeline (`_download_and_respond`,
`_get_r2_config`, `_upload_to_r2`)

The pipeline is embedded as a pure function from an environment (process
configuration plus the outcomes of the two external collaborators) and the
request inputs to an `Outcome` recording the HTTP result and the request's
observable effects: whether the fetch collaborator ran, whether the storage
configuration was read, whether an upload was attempted, and which scratch
files were removed or remain after the whole request lifecycle (deferred
`BackgroundTask` cleanup included). -/

/-- `str.strip()` on `String`. -/
def stripStr (s : String) : String := ⟨pyStrip s.data⟩

/-- Successful result of `_download_instagram_media`: the candidate files
of the scratch directory plus the generated download name.  The source
raises when no file exists, so a success always carries at least one file. -/
structure FetchOk where
  files : List PyPath
  downloadName : String
  nonempty : files ≠ []

/-- Process environment and collaborator behaviour for one request. -/
structure Env where
  /-- whether `import yt_dlp` succeeded at module load -/
  ytdlpAvailable : Bool
  /-- outcome of `_download_instagram_media` (error = raised exception text) -/
  fetch : Except String FetchOk
  /-- raw `R2_ENDPOINT` (`""` models unset, as `os.getenv(..., "")`) -/
  r2Endpoint : String
  /-- raw `R2_BUCKET` -/
  r2Bucket : String
  /-- raw `R2_ACCESS_KEY_ID` -/
  r2AccessKey : String
  /-- raw `R2_SECRET_ACCESS_KEY` -/
  r2SecretKey : String
  /-- raw `R2_PUBLIC_BASE` -/
  r2PublicBase : String
  /-- raw `R2_SIGNED_URL_TTL` (`none` = unset, so `os.getenv` yields `"3600"`) -/
  r2Ttl : Option String
  /-- whether `import boto3` succeeds inside `_upload_to_r2` -/
  boto3Available : Bool
  /-- whether `client.upload_file` succeeds -/
  uploadOk : Bool
  /-- the `uuid.uuid4().hex` drawn for this request -/
  uuidHex : String
  /-- `client.generate_presigned_url` as an opaque function of key and TTL -/
  presign : String → Nat → String

/-- The validated storage settings of `_get_r2_config` (src/main.py:90-111). -/
structure R2Config where
  endpoint : String
  bucket : String
  accessKey : String
  secretKey : String
  publicBase : String
  ttl : String
deriving DecidableEq

/-- `_get_r2_config`: strip the six environment values; if any of the four
required ones is empty, raise `HTTPException(500)`. -/
def get_r2_config (env : Env) : Except Nat R2Config :=
  let endpoint := stripStr env.r2Endpoint
  let bucket := stripStr env.r2Bucket
  let accessKey := stripStr env.r2AccessKey
  let secretKey := stripStr env.r2SecretKey
  let publicBase := stripStr env.r2PublicBase
  let ttl := stripStr (env.r2Ttl.getD "3600")
  if endpoint = "" || bucket = "" || accessKey = "" || secretKey = "" then
    Except.error 500
  else
    Except.ok { endpoint, bucket, accessKey, secretKey, publicBase, ttl }

/-- Failure modes of `_upload_to_r2`, in the order the source can raise
them: missing configuration, missing `boto3`, failing upload call. -/
inductive UploadErr
  | configMissing
  | boto3Missing
  | clientFail
deriving DecidableEq

/-- `int(config["ttl"]) if config["ttl"].isdigit() else 3600` (`isdigit`
modelled over the ASCII digits used by the program; `""` is not a digit
string). -/
def effectiveTtl (ttl : String) : Nat :=
  if !ttl.data.isEmpty && ttl.data.all Char.isDigit then
    ttl.data.foldl (fun acc c => 10 * acc + (c.toNat - 48)) 0
  else 3600

/-- `_upload_to_r2(file_path, object_name)` (src/main.py:114-141): read the
configuration (raising first on missing settings), import `boto3`, upload,
then build either the public URL (`public_base.rstrip("/") + "/" + key`,
no expiry) or a presigned URL with the effective TTL. -/
def upload_to_r2 (env : Env) (_filePath : PyPath) (objectName : String) :
    Except UploadErr (String × Option Nat) :=
  match get_r2_config env with
  | Except.error _ => Except.error UploadErr.configMissing
  | Except.ok cfg =>
    if env.boto3Available = false then Except.error UploadErr.boto3Missing
    else if env.uploadOk = false then Except.error UploadErr.clientFail
    else if cfg.publicBase ≠ "" then
      Except.ok ((⟨pyRstripSlash cfg.publicBase.data⟩ : String) ++ "/" ++ objectName, none)
    else
      let ttl := effectiveTtl cfg.ttl
      Except.ok (env.presign objectName ttl, some ttl)

/-- Error classes a request can end in (section 7 of the spec). -/
inductive ErrKind
  | ytdlpMissing
  | invalidUrl
  | fetchFailed
  | r2ConfigMissing
  | boto3Missing
  | uploadFailed
deriving DecidableEq

/-- Observable result of one request through `_download_and_respond`:
HTTP status, error class, collaborator activity, response payload fields,
and the scratch-file lifecycle after response completion (deferred cleanup
already run). -/
structure Outcome where
  status : Nat
  errKind : Option ErrKind
  /-- `_download_instagram_media` was called -/
  fetchInvoked : Bool
  /-- `_get_r2_config` was called -/
  r2ConfigRead : Bool
  /-- `client.upload_file` was called -/
  uploadAttempted : Bool
  /-- file argument passed to `_upload_to_r2` -/
  uploadReqPath : Option PyPath
  /-- object key passed to `_upload_to_r2` -/
  uploadReqKey : Option String
  /-- the response is the JSON link payload (`delivery: "link"`) -/
  isLink : Bool
  /-- `download_url` of the link payload -/
  responseUrl : Option String
  /-- `filename` of the response -/
  responseFilename : Option String
  /-- media type of a streamed `FileResponse` -/
  mediaType : Option String
  /-- `expires_in` of the link payload (omitted when falsy) -/
  expiresIn : Option Nat
  /-- scratch files removed, in removal order, over the whole lifecycle -/
  removed : List PyPath
  /-- the scratch directory itself was removed -/
  removedDir : Bool
  /-- scratch files still on disk after the whole lifecycle -/
  remaining : List PyPath
deriving DecidableEq

/-- All-default outcome used as the base of record updates. -/
def emptyOutcome : Outcome :=
  { status := 200, errKind := none, fetchInvoked := false, r2ConfigRead := false
    uploadAttempted := false, uploadReqPath := none, uploadReqKey := none
    isLink := false, responseUrl := none, responseFilename := none
    mediaType := none, expiresIn := none, removed := [], removedDir := false
    remaining := [] }

/-- `delivery and delivery.lower() == "link"` (src/main.py:179). -/
def linkHint (delivery : Option String) : Bool :=
  match delivery with
  | none => false
  | some d => d != "" && pyLower d.data == "link".data

/-- Delivery phase of `_download_and_respond` (src/main.py:179-248), after a
successful fetch produced `first :: rest` and `downloadName`.  Link
delivery zips unconditionally, uploads, and cleans up synchronously only
after a successful upload (a raised exception skips the cleanup block);
inline delivery streams the zip (when more than one file) or the single
file, with cleanup deferred to a post-response `BackgroundTask`. -/
def deliverPhase (env : Env) (first : PyPath) (rest : List PyPath)
    (downloadName : String) (delivery : Option String) : Outcome :=
  if linkHint delivery then
    let z := zip_media first rest
    let objectName := "instagram/" ++ env.uuidHex ++ "/" ++ z.path.name
    match upload_to_r2 env z.path objectName with
    | Except.error e =>
      { emptyOutcome with
        status := 500
        errKind := some (match e with
          | UploadErr.configMissing => ErrKind.r2ConfigMissing
          | UploadErr.boto3Missing => ErrKind.boto3Missing
          | UploadErr.clientFail => ErrKind.uploadFailed)
        fetchInvoked := true
        r2ConfigRead := true
        uploadAttempted := (match e with
          | UploadErr.clientFail => true
          | _ => false)
        uploadReqPath := some z.path
        uploadReqKey := some objectName
        remaining := (first :: rest) ++ [z.path] }
    | Except.ok (url2, expires) =>
      { emptyOutcome with
        status := 200
        fetchInvoked := true
        r2ConfigRead := true
        uploadAttempted := true
        uploadReqPath := some z.path
        uploadReqKey := some objectName
        isLink := true
        responseUrl := some url2
        responseFilename := some z.path.name
        expiresIn := (match expires with
          | some n => if 0 < n then some n else none
          | none => none)
        removed := (first :: rest) ++ [z.path]
        removedDir := true
        remaining := [] }
  else if (first :: rest).length > 1 then
    let z := zip_media first rest
    { emptyOutcome with
      status := 200
      fetchInvoked := true
      responseFilename := some z.path.name
      mediaType := some "application/zip"
      removed := (first :: rest) ++ [z.path]
      removedDir := true
      remaining := [] }
  else
    { emptyOutcome with
      status := 200
      fetchInvoked := true
      responseFilename := some downloadName
      mediaType := some "application/octet-stream"
      removed := [first]
      removedDir := true
      remaining := [] }

/-- `_download_and_respond(url, delivery)` (src/main.py:162-248): normalize,
fail 500 when `yt_dlp` failed to import, fail 400 on an invalid URL, run
the fetch (422 on failure), then deliver. -/
def download_and_respond (env : Env) (url : String) (delivery : Option String) :
    Outcome :=
  let normalized := normalize_instagram_input url.data
  if env.ytdlpAvailable = false then
    { emptyOutcome with status := 500, errKind := some ErrKind.ytdlpMissing }
  else if is_valid_instagram_url normalized = false then
    { emptyOutcome with status := 400, errKind := some ErrKind.invalidUrl }
  else
    match env.fetch with
    | Except.error _ =>
      { emptyOutcome with
        status := 422, errKind := some ErrKind.fetchFailed, fetchInvoked := true }
    | Except.ok fo =>
      match h : fo.files with
      | [] => absurd h fo.nonempty
      | first :: rest => deliverPhase env first rest fo.downloadName delivery

/-- `GET /` (src/main.py:144-159): download when `url` is truthy, else the
status JSON (modelled as `none`). -/
def root_handler (env : Env) (url : Option String) (delivery : Option String) :
    Option Outcome :=
  match url with
  | some u => if u != "" then some (download_and_respond env u delivery) else none
  | none => none

/-- `POST /api/v1/instagram/download` (src/main.py:251-253). -/
def download_instagram_media_post (env : Env) (url : String)
    (delivery : Option String) : Outcome :=
  download_and_respond env url delivery

/-- `GET /api/v1/instagram/download` (src/main.py:256-261). -/
def download_instagram_media_get (env : Env) (url : String)
    (delivery : Option String) : Outcome :=
  download_and_respond env url delivery

/-- URL reconstruction of the catch-all handler (src/main.py:269-279):
percent-decode and trim the path, prepend `https://` when no scheme is
present, and re-attach the query string when the URL carries none. -/
def buildDirectUrl (target query : String) : String :=
  let rawTarget : List Char := pyUnquote (pyStrip target.data)
  let direct : List Char :=
    if "http://".data.isPrefixOf rawTarget || "https://".data.isPrefixOf rawTarget
    then rawTarget
    else "https://".data ++ rawTarget
  if query != "" && !(direct.contains '?') then ⟨direct ++ '?' :: query.data⟩
  else ⟨direct⟩

/-- `GET /{target:path}` (src/main.py:269-282): rebuild the URL from path
and query string, read `delivery` from the query parameters, and run the
common pipeline. -/
def download_instagram_media_direct_path (env : Env) (target query : String)
    (deliveryParam : Option String) : Outcome :=
  download_and_respond env (buildDirectUrl target query) deliveryParam

/-! ## Concrete fixtures used by witnesses and counterexamples -/

/-- A single downloaded file in a scratch directory. -/
def sampleFile : PyPath := { parent := "/tmp/ig_dl_a1b2", name := "video.mp4" }

/-- The archive `_zip_media` would build next to `sampleFile`. -/
def sampleZip : PyPath := { parent := "/tmp/ig_dl_a1b2", name := "video.mp4.zip" }

/-- A successful single-file fetch. -/
def sampleFetch : Except String FetchOk :=
  Except.ok { files := [sampleFile], downloadName := "My_Reel_1_abc.mp4"
              nonempty := List.cons_ne_nil _ _ }

/-- A fully configured environment (no public base, TTL unset) around
`sampleFetch`. -/
def sampleEnv : Env :=
  { ytdlpAvailable := true
    fetch := sampleFetch
    r2Endpoint := "https://acct.r2.example"
    r2Bucket := "media"
    r2AccessKey := "AKID"
    r2SecretKey := "SECRET"
    r2PublicBase := ""
    r2Ttl := none
    boto3Available := true
    uploadOk := true
    uuidHex := "0a1b2c3d"
    presign := fun key ttl => "https://signed.example/" ++ key ++ "?X-Amz-Expires=" ++ toString ttl }

/-! ## Helper lemmas -/

theorem pySuffix_cases (name : List Char) :
    pySuffix name = [] ∨
      ∃ i, i ≤ name.length ∧ pySuffix name = name.drop i := by
  unfold pySuffix
  cases h : lastDotIdx name with
  | none => exact Or.inl rfl
  | some i =>
    by_cases hc : (0 < i && i + 1 < name.length) = true
    · refine Or.inr ⟨i, ?_, by simp [hc]⟩
      have := (Bool.and_eq_true _ _).mp hc
      have h2 : i + 1 < name.length := of_decide_eq_true this.2
      omega
    · exact Or.inl (by simp [hc])

/-- `with_suffix(suffix + s)` appends `s` to the whole name: `with_suffix`
first removes exactly the old suffix, then appends it back with `s`. -/
theorem pyWithSuffixName_suffix_append (name s : List Char) :
    pyWithSuffixName name (pySuffix name ++ s) = name ++ s := by
  unfold pyWithSuffixName
  by_cases h0 : pySuffix name = []
  · simp [h0]
  · rw [if_neg h0]
    rcases pySuffix_cases name with h | ⟨i, hi, h⟩
    · exact absurd h h0
    · rw [h, List.length_drop]
      have h2 : name.length - (name.length - i) = i := by omega
      rw [h2, ← List.append_assoc, List.take_append_drop]

/-! ## C8 -/

/-- C8: `_zip_media` on a non-empty list `first :: rest` produces one
archive located in the first input's directory, named by appending `.zip`
to the first input's filename, whose members are exactly the inputs'
base filenames in order, with deflate compression.  (`zip_media` is a
function, so the result is deterministic in its inputs by construction.) -/
theorem C8_zip_media_shape (first : PyPath) (rest : List PyPath) :
    (zip_media first rest).path.parent = first.parent ∧
    (zip_media first rest).path.name = first.name ++ ".zip" ∧
    (zip_media first rest).members = (first :: rest).map PyPath.name ∧
    (zip_media first rest).compression = ZipCompression.deflated := by
  refine ⟨rfl, ?_, rfl, rfl⟩
  show (⟨pyWithSuffixName first.name.data (pySuffix first.name.data ++ ".zip".data)⟩ : String) = _
  rw [pyWithSuffixName_suffix_append]
  rfl

/-! ## C6 -/

theorem skipRun_all_disallowed (s : List Char)
    (h : ∀ c ∈ s, allowedChar c = false) : skipRun s = [] := by
  induction s with
  | nil => rfl
  | cons c rest ih =>
    rw [skipRun, h c (List.mem_cons_self c rest)]
    exact ih fun x hx => h x (List.mem_cons_of_mem c hx)

theorem collapseRuns_all_disallowed (c : Char) (rest : List Char)
    (h : ∀ x ∈ c :: rest, allowedChar x = false) :
    collapseRuns (c :: rest) = ['_'] := by
  rw [collapseRuns, h c (List.mem_cons_self c rest),
    skipRun_all_disallowed rest fun x hx => h x (List.mem_cons_of_mem c hx)]
  rfl

theorem pySpace_not_allowed (c : Char) (h : pySpace c = true) :
    allowedChar c = false := by
  simp only [pySpace, Bool.or_eq_true, beq_iff_eq] at h
  rcases h with ((((rfl | rfl) | rfl) | rfl) | rfl) | rfl <;> decide

/-- C6 counterexample: a whitespace-only title does not fall back to the
default placeholder — the `or` fallback fires only for a falsy (empty or
missing) title, so `" "` sanitizes to the empty string. -/
theorem C6_counterexample :
    sanitizeTitleStr (some " ") = "" ∧
    sanitizeTitleStr (some " ") ≠ "instagram_media" := by decide

/-- C6 (amended): `"My Reel! #1"` sanitizes to `"My_Reel_1"`; a missing or
empty title falls back to `"instagram_media"`; but a non-empty
whitespace-only title sanitizes to the empty string instead of the
placeholder. -/
theorem C6_title_sanitization (s : List Char) (hne : s ≠ [])
    (hsp : ∀ c ∈ s, pySpace c = true) :
    sanitizeTitleStr (some "My Reel! #1") = "My_Reel_1" ∧
    sanitizeTitleStr none = "instagram_media" ∧
    sanitizeTitleStr (some "") = "instagram_media" ∧
    sanitizeTitle (some s) = [] := by
  refine ⟨by decide, by decide, by decide, ?_⟩
  cases s with
  | nil => exact absurd rfl hne
  | cons c rest =>
    have hall : ∀ x ∈ c :: rest, allowedChar x = false :=
      fun x hx => pySpace_not_allowed x (hsp x hx)
    rw [sanitizeTitle, effectiveTitle]
    rw [if_neg (by exact List.cons_ne_nil c rest)]
    rw [collapseRuns_all_disallowed c rest hall]
    rfl

/-- C6 witness: the amended statement at the whitespace-only title `" "`. -/
theorem C6_witness :
    (" ".data ≠ [] ∧ ∀ c ∈ " ".data, pySpace c = true) ∧
    sanitizeTitle (some " ".data) = [] :=
  ⟨⟨by decide, by decide⟩,
    (C6_title_sanitization " ".data (by decide) (by decide)).2.2.2⟩

/-! ## C5 -/

/-- The configuration `_get_r2_config` yields in `sampleEnv`. -/
def sampleCfg : R2Config :=
  { endpoint := "https://acct.r2.example", bucket := "media"
    accessKey := "AKID", secretKey := "SECRET", publicBase := "", ttl := "3600" }

/-- `sampleEnv` with a public base URL that ends in a slash. -/
def slashBaseEnv : Env := { sampleEnv with r2PublicBase := "https://cdn.example.com/" }

/-- C5 counterexample: with a public base ending in `/`, the returned URL is
the base with trailing slashes stripped plus `/` plus the key — not the
literal `publicBase + "/" + objectKey`, which would carry a double slash. -/
theorem C5_counterexample :
    upload_to_r2 slashBaseEnv sampleZip "instagram/0a1b2c3d/video.mp4.zip" =
      Except.ok ("https://cdn.example.com/instagram/0a1b2c3d/video.mp4.zip",
        (none : Option Nat)) ∧
    slashBaseEnv.r2PublicBase ++ "/" ++ "instagram/0a1b2c3d/video.mp4.zip" =
      "https://cdn.example.com//instagram/0a1b2c3d/video.mp4.zip" ∧
    ("https://cdn.example.com/instagram/0a1b2c3d/video.mp4.zip" : String) ≠
      "https://cdn.example.com//instagram/0a1b2c3d/video.mp4.zip" :=
  ⟨rfl, rfl, by decide⟩

/-- C5 (amended): with a validated configuration and a working upload, a
configured public base yields `rstrip("/", publicBase) + "/" + objectKey`
with no expiry; otherwise a presigned URL is returned together with an
expiry equal to the effective TTL, which is 3600 when the TTL variable is
unset or not a digit string. -/
theorem C5_upload_url (env : Env) (p : PyPath) (key : String) (cfg : R2Config)
    (hcfg : get_r2_config env = Except.ok cfg)
    (hb : env.boto3Available = true) (hu : env.uploadOk = true) :
    (cfg.publicBase ≠ "" →
      upload_to_r2 env p key =
        Except.ok ((⟨pyRstripSlash cfg.publicBase.data⟩ : String) ++ "/" ++ key, none)) ∧
    (cfg.publicBase = "" →
      upload_to_r2 env p key =
        Except.ok (env.presign key (effectiveTtl cfg.ttl), some (effectiveTtl cfg.ttl))) ∧
    (env.r2Ttl = none → effectiveTtl cfg.ttl = 3600) ∧
    ((!cfg.ttl.data.isEmpty && cfg.ttl.data.all Char.isDigit) = false →
      effectiveTtl cfg.ttl = 3600) := by
  have ht : cfg.ttl = stripStr (env.r2Ttl.getD "3600") := by
    rw [get_r2_config] at hcfg
    split at hcfg
    · exact Except.noConfusion hcfg
    · injection hcfg with hcfg
      subst hcfg
      rfl
  have hup : upload_to_r2 env p key =
      (if cfg.publicBase ≠ "" then
        Except.ok ((⟨pyRstripSlash cfg.publicBase.data⟩ : String) ++ "/" ++ key, none)
      else
        Except.ok (env.presign key (effectiveTtl cfg.ttl), some (effectiveTtl cfg.ttl))) := by
    rw [upload_to_r2, hcfg, hb, hu]
    simp
  refine ⟨fun hpb => ?_, fun hpb => ?_, fun hn => ?_, fun hd => ?_⟩
  · rw [hup, if_pos hpb]
  · rw [hup, if_neg (by simp [hpb])]
  · rw [ht, hn]; decide
  · rw [effectiveTtl, if_neg (by simp [hd])]

/-- C5 witness: the amended statement at `sampleEnv` (no public base, TTL
unset), at the abstract presigned URL with TTL 3600. -/
theorem C5_witness :
    (get_r2_config sampleEnv = Except.ok sampleCfg ∧
      sampleEnv.boto3Available = true ∧ sampleEnv.uploadOk = true ∧
      sampleEnv.r2Ttl = none ∧ sampleCfg.publicBase = "") ∧
    upload_to_r2 sampleEnv sampleZip "k" =
      Except.ok (sampleEnv.presign "k" (effectiveTtl sampleCfg.ttl),
        some (effectiveTtl sampleCfg.ttl)) ∧
    effectiveTtl sampleCfg.ttl = 3600 :=
  ⟨⟨rfl, rfl, rfl, rfl, rfl⟩,
    (C5_upload_url sampleEnv sampleZip "k" sampleCfg rfl rfl rfl).2.1 rfl,
    (C5_upload_url sampleEnv sampleZip "k" sampleCfg rfl rfl rfl).2.2.1 rfl⟩

/-! ## C3 -/

/-- `sampleEnv` with the storage endpoint unset, so `_get_r2_config` raises
after the zip was already created. -/
def noStorageEnv : Env := { sampleEnv with r2Endpoint := "" }

/-- C3: failing input for the cleanup guarantee.  A link-delivery request
whose upload step fails (here: missing storage configuration, raised by
`_get_r2_config` after `_zip_media` ran) propagates the exception past the
cleanup block, so nothing is removed: the downloaded file, the created
archive, and the scratch directory all remain. -/
theorem C3_files_leak_when_upload_fails :
    (download_and_respond noStorageEnv "https://instagram.com/reel/r1" (some "link")).status = 500 ∧
    (download_and_respond noStorageEnv "https://instagram.com/reel/r1" (some "link")).removed = [] ∧
    (download_and_respond noStorageEnv "https://instagram.com/reel/r1" (some "link")).remaining =
      [sampleFile, sampleZip] ∧
    (download_and_respond noStorageEnv "https://instagram.com/reel/r1" (some "link")).removedDir =
      false := by
  decide

/-! ## C10 -/

/-- C10: when the extractor library failed to import, every download request
through any entry point returns 500 before URL validation — in particular
an invalid URL yields 500, not 400 — and the fetch is never invoked. -/
theorem C10_missing_ytdlp_yields_500 (env : Env) (url target query : String)
    (delivery : Option String) (h : env.ytdlpAvailable = false) :
    (download_and_respond env url delivery).status = 500 ∧
    (download_and_respond env url delivery).errKind = some ErrKind.ytdlpMissing ∧
    (download_and_respond env url delivery).fetchInvoked = false ∧
    (download_and_respond env url delivery).status ≠ 400 ∧
    (download_instagram_media_post env url delivery).status = 500 ∧
    (download_instagram_media_get env url delivery).status = 500 ∧
    (download_instagram_media_direct_path env target query delivery).status = 500 ∧
    (∀ o, root_handler env (some url) delivery = some o → o.status = 500) := by
  have hd : ∀ u, download_and_respond env u delivery =
      { emptyOutcome with status := 500, errKind := some ErrKind.ytdlpMissing } := by
    intro u
    rw [download_and_respond, h]
    simp
  refine ⟨?_, ?_, ?_, ?_, ?_, ?_, ?_, ?_⟩
  · rw [hd]
  · rw [hd]
  · rw [hd]; rfl
  · rw [hd]; decide
  · rw [download_instagram_media_post, hd]
  · rw [download_instagram_media_get, hd]
  · rw [download_instagram_media_direct_path, hd]
  · intro o ho
    rw [root_handler] at ho
    split at ho
    · injection ho with ho
      rw [← ho, hd]
    · exact Option.noConfusion ho

/-- `sampleEnv` with the extractor library unavailable. -/
def noYtdlpEnv : Env := { sampleEnv with ytdlpAvailable := false }

/-- C10 witness: the statement at a concrete environment with the library
missing and a concretely invalid URL. -/
theorem C10_witness :
    noYtdlpEnv.ytdlpAvailable = false ∧
    is_valid_instagram_url (normalize_instagram_input "not a url".data) = false ∧
    (download_and_respond noYtdlpEnv "not a url" none).status = 500 ∧
    (download_and_respond noYtdlpEnv "not a url" none).status ≠ 400 :=
  ⟨rfl, by decide,
    (C10_missing_ytdlp_yields_500 noYtdlpEnv "not a url" "t" "q" none rfl).1,
    (C10_missing_ytdlp_yields_500 noYtdlpEnv "not a url" "t" "q" none rfl).2.2.2.1⟩

/-! ## C1 -/

/-- C1 counterexample: with the extractor library unavailable, an input whose
normalized form fails the host pattern is answered with 500 (configuration
error), not the claimed 400 — the availability check precedes validation. -/
theorem C1_counterexample :
    is_valid_instagram_url (normalize_instagram_input "totally not a url".data) = false ∧
    (download_and_respond noYtdlpEnv "totally not a url" none).status = 500 ∧
    (download_and_respond noYtdlpEnv "totally not a url" none).status ≠ 400 := by
  decide

/-- C1 (amended): provided the extractor library imported successfully, every
input whose normalized form fails the host pattern is rejected with the
invalid-URL client error (400) and the fetch collaborator is never invoked. -/
theorem C1_invalid_url_400_no_fetch (env : Env) (url : String)
    (delivery : Option String) (hyt : env.ytdlpAvailable = true)
    (hinv : is_valid_instagram_url (normalize_instagram_input url.data) = false) :
    (download_and_respond env url delivery).status = 400 ∧
    (download_and_respond env url delivery).errKind = some ErrKind.invalidUrl ∧
    (download_and_respond env url delivery).fetchInvoked = false := by
  rw [download_and_respond, hyt]
  simp [hinv, emptyOutcome]

/-- C1 witness: the amended statement at `sampleEnv` and a concretely
invalid input. -/
theorem C1_witness :
    (sampleEnv.ytdlpAvailable = true ∧
      is_valid_instagram_url (normalize_instagram_input "not a url".data) = false) ∧
    (download_and_respond sampleEnv "not a url" none).status = 400 ∧
    (download_and_respond sampleEnv "not a url" none).errKind = some ErrKind.invalidUrl ∧
    (download_and_respond sampleEnv "not a url" none).fetchInvoked = false :=
  ⟨⟨rfl, by decide⟩, C1_invalid_url_400_no_fetch sampleEnv "not a url" none rfl (by decide)⟩

/-! ## C2 -/

/-- C2 counterexample: with a successful single-file fetch (`sampleFetch`
holds exactly `sampleFile`) and delivery `"link"`, the uploaded object is
the archive `video.mp4.zip`, not the single file as-is — the link path
zips unconditionally, without the claimed file-count check. -/
theorem C2_counterexample :
    (download_and_respond sampleEnv "https://instagram.com/p/c1" (some "link")).uploadReqPath =
      some sampleZip ∧
    some sampleZip ≠ some sampleFile ∧
    (download_and_respond sampleEnv "https://instagram.com/p/c1" (some "link")).responseFilename =
      some "video.mp4.zip" := by
  decide

/-- C2 (amended): for every successful fetch, when the delivery hint equals
`"link"` case-insensitively, the pipeline always archives the bundle —
even a single-file bundle — and uploads the archive under the object key
`"instagram/" + <random hex segment> + "/" + <archive name>`, where the
archive name is the first file's name with `".zip"` appended; on upload
success it returns a remote-link outcome carrying the archive name. -/
theorem C2_link_always_archives (env : Env) (url : String)
    (delivery : Option String) (files : List PyPath) (first : PyPath)
    (rest : List PyPath) (dn : String) (hne : files ≠ []) (u2 : String)
    (exp : Option Nat)
    (hyt : env.ytdlpAvailable = true)
    (hval : is_valid_instagram_url (normalize_instagram_input url.data) = true)
    (hfetch : env.fetch = Except.ok ⟨files, dn, hne⟩)
    (hfiles : files = first :: rest)
    (hlink : linkHint delivery = true)
    (hok : upload_to_r2 env (zip_media first rest).path
        ("instagram/" ++ env.uuidHex ++ "/" ++ (zip_media first rest).path.name) =
      Except.ok (u2, exp)) :
    (download_and_respond env url delivery).uploadReqPath =
      some (zip_media first rest).path ∧
    (zip_media first rest).path.name = first.name ++ ".zip" ∧
    (download_and_respond env url delivery).uploadReqKey =
      some ("instagram/" ++ env.uuidHex ++ "/" ++ (first.name ++ ".zip")) ∧
    (download_and_respond env url delivery).isLink = true ∧
    (download_and_respond env url delivery).status = 200 ∧
    (download_and_respond env url delivery).responseUrl = some u2 ∧
    (download_and_respond env url delivery).responseFilename =
      some (first.name ++ ".zip") := by
  subst hfiles
  have hz : (zip_media first rest).path.name = first.name ++ ".zip" := by
    show (⟨pyWithSuffixName first.name.data (pySuffix first.name.data ++ ".zip".data)⟩ :
      String) = _
    rw [pyWithSuffixName_suffix_append]
    rfl
  have hd : download_and_respond env url delivery =
      deliverPhase env first rest dn delivery := by
    rw [download_and_respond, hfetch, hyt, hval]
    simp
  rw [hz] at hok
  rw [hd, deliverPhase, hlink]
  simp [hok, hz]

/-- C2 witness: the amended statement at `sampleEnv` (single-file fetch)
with the upper-case hint `"LINK"`. -/
theorem C2_witness :
    linkHint (some "LINK") = true ∧
    (download_and_respond sampleEnv "https://instagram.com/p/c2" (some "LINK")).uploadReqPath =
      some (zip_media sampleFile []).path ∧
    (download_and_respond sampleEnv "https://instagram.com/p/c2" (some "LINK")).isLink = true ∧
    (download_and_respond sampleEnv "https://instagram.com/p/c2" (some "LINK")).responseFilename =
      some (sampleFile.name ++ ".zip") :=
  ⟨by decide,
    (C2_link_always_archives sampleEnv "https://instagram.com/p/c2" (some "LINK")
      [sampleFile] sampleFile [] "My_Reel_1_abc.mp4" (List.cons_ne_nil _ _)
      "https://signed.example/instagram/0a1b2c3d/video.mp4.zip?X-Amz-Expires=3600"
      (some 3600) rfl (by decide) rfl rfl (by decide) rfl).1,
    (C2_link_always_archives sampleEnv "https://instagram.com/p/c2" (some "LINK")
      [sampleFile] sampleFile [] "My_Reel_1_abc.mp4" (List.cons_ne_nil _ _)
      "https://signed.example/instagram/0a1b2c3d/video.mp4.zip?X-Amz-Expires=3600"
      (some 3600) rfl (by decide) rfl rfl (by decide) rfl).2.2.2.1,
    (C2_link_always_archives sampleEnv "https://instagram.com/p/c2" (some "LINK")
      [sampleFile] sampleFile [] "My_Reel_1_abc.mp4" (List.cons_ne_nil _ _)
      "https://signed.example/instagram/0a1b2c3d/video.mp4.zip?X-Amz-Expires=3600"
      (some 3600) rfl (by decide) rfl rfl (by decide) rfl).2.2.2.2.2.2⟩

/-! ## C4 -/

/-- C4: if any one of the four required storage settings is missing or
blank, every link-delivery request fails with the configuration error
(500) before any upload attempt, while a stream-delivery request in the
same environment (same successful fetch) succeeds with 200 and never
consults the storage configuration. -/
theorem C4_missing_storage_blocks_link_only (env : Env) (url : String)
    (dLink dStream : Option String) (files : List PyPath) (first : PyPath)
    (rest : List PyPath) (dn : String) (hne : files ≠ [])
    (hyt : env.ytdlpAvailable = true)
    (hval : is_valid_instagram_url (normalize_instagram_input url.data) = true)
    (hfetch : env.fetch = Except.ok ⟨files, dn, hne⟩)
    (hfiles : files = first :: rest)
    (hmiss : stripStr env.r2Endpoint = "" ∨ stripStr env.r2Bucket = "" ∨
      stripStr env.r2AccessKey = "" ∨ stripStr env.r2SecretKey = "")
    (hlink : linkHint dLink = true) (hstream : linkHint dStream = false) :
    (download_and_respond env url dLink).status = 500 ∧
    (download_and_respond env url dLink).errKind = some ErrKind.r2ConfigMissing ∧
    (download_and_respond env url dLink).uploadAttempted = false ∧
    (download_and_respond env url dStream).status = 200 ∧
    (download_and_respond env url dStream).errKind = none ∧
    (download_and_respond env url dStream).r2ConfigRead = false := by
  subst hfiles
  have hcfg : get_r2_config env = Except.error 500 := by
    rw [get_r2_config]
    rcases hmiss with h | h | h | h <;> simp [h]
  have hup : ∀ p k, upload_to_r2 env p k = Except.error UploadErr.configMissing := by
    intro p k
    rw [upload_to_r2, hcfg]
  have hd : ∀ d, download_and_respond env url d = deliverPhase env first rest dn d := by
    intro d
    rw [download_and_respond, hfetch, hyt, hval]
    simp
  refine ⟨?_, ?_, ?_, ?_, ?_, ?_⟩ <;> rw [hd]
  · rw [deliverPhase, hlink]; simp [hup]
  · rw [deliverPhase, hlink]; simp [hup]
  · rw [deliverPhase, hlink]; simp [hup]
  · rw [deliverPhase, hstream]; simp only [Bool.false_eq_true, if_false]
    split <;> rfl
  · rw [deliverPhase, hstream]; simp only [Bool.false_eq_true, if_false]
    split <;> rfl
  · rw [deliverPhase, hstream]; simp only [Bool.false_eq_true, if_false]
    split <;> rfl

/-- C4 witness: the statement at `noStorageEnv` (blank endpoint, successful
single-file fetch), with hints `"link"` and `"stream"`. -/
theorem C4_witness :
    (stripStr noStorageEnv.r2Endpoint = "" ∧ linkHint (some "link") = true ∧
      linkHint (some "stream") = false) ∧
    (download_and_respond noStorageEnv "https://instagram.com/p/c4" (some "link")).status = 500 ∧
    (download_and_respond noStorageEnv "https://instagram.com/p/c4" (some "link")).uploadAttempted =
      false ∧
    (download_and_respond noStorageEnv "https://instagram.com/p/c4" (some "stream")).status = 200 ∧
    (download_and_respond noStorageEnv "https://instagram.com/p/c4" (some "stream")).r2ConfigRead =
      false :=
  ⟨⟨rfl, by decide, by decide⟩,
    (C4_missing_storage_blocks_link_only noStorageEnv "https://instagram.com/p/c4"
      (some "link") (some "stream") [sampleFile] sampleFile [] "My_Reel_1_abc.mp4"
      (List.cons_ne_nil _ _) rfl (by decide) rfl rfl (Or.inl rfl) (by decide)
      (by decide)).1,
    (C4_missing_storage_blocks_link_only noStorageEnv "https://instagram.com/p/c4"
      (some "link") (some "stream") [sampleFile] sampleFile [] "My_Reel_1_abc.mp4"
      (List.cons_ne_nil _ _) rfl (by decide) rfl rfl (Or.inl rfl) (by decide)
      (by decide)).2.2.1,
    (C4_missing_storage_blocks_link_only noStorageEnv "https://instagram.com/p/c4"
      (some "link") (some "stream") [sampleFile] sampleFile [] "My_Reel_1_abc.mp4"
      (List.cons_ne_nil _ _) rfl (by decide) rfl rfl (Or.inl rfl) (by decide)
      (by decide)).2.2.2.1,
    (C4_missing_storage_blocks_link_only noStorageEnv "https://instagram.com/p/c4"
      (some "link") (some "stream") [sampleFile] sampleFile [] "My_Reel_1_abc.mp4"
      (List.cons_ne_nil _ _) rfl (by decide) rfl rfl (Or.inl rfl) (by decide)
      (by decide)).2.2.2.2.2⟩

/-! ## C7 helper lemmas: `unquote` is the identity on percent-free text -/

theorem uqTokensF_no_pct (l : List Char) (f : Nat) (hf : l.length ≤ f)
    (h : '%' ∉ l) : uqTokensF f l = l.map plainTok := by
  induction l generalizing f with
  | nil => cases f <;> rfl
  | cons c rest ih =>
    cases f with
    | zero => exact absurd hf (by simp)
    | succ f =>
      have hc : ¬ c = '%' := fun hc => h (hc ▸ List.mem_cons_self c rest)
      have hstep : uqTokensF (f + 1) (c :: rest) = plainTok c :: uqTokensF f rest := by
        conv_lhs => rw [uqTokensF.eq_def]
        simp [hc]
      rw [hstep, List.map_cons]
      refine congrArg _ (ih f ?_ ?_)
      · exact Nat.le_of_succ_le_succ (by simpa using hf)
      · exact fun hm => h (List.mem_cons_of_mem c hm)

theorem decodeToks_plain (l : List Char) (f : Nat) (hf : l.length ≤ f) :
    decodeToks f (l.map plainTok) = l := by
  induction l generalizing f with
  | nil => cases f <;> rfl
  | cons c rest ih =>
    cases f with
    | zero => exact absurd hf (by simp)
    | succ f =>
      have hrest : rest.length ≤ f := Nat.le_of_succ_le_succ (by simpa using hf)
      rw [List.map_cons, plainTok]
      by_cases ha : isAsciiC c = true
      · have hlt : c.toNat < 0x80 := by
          have := of_decide_eq_true (by simpa [isAsciiC] using ha)
          omega
        have hstep : decodeToks (f + 1) (UQTok.byte c.toNat :: rest.map plainTok) =
            Char.ofNat c.toNat :: decodeToks f (rest.map plainTok) := by
          conv_lhs => rw [decodeToks.eq_def]
          simp [hlt]
        rw [if_pos ha, hstep, Char.ofNat_toNat, ih f hrest]
      · have hstep : decodeToks (f + 1) (UQTok.raw c :: rest.map plainTok) =
            c :: decodeToks f (rest.map plainTok) := by
          conv_lhs => rw [decodeToks.eq_def]
        rw [if_neg ha, hstep, ih f hrest]

/-- `unquote` leaves percent-free text unchanged. -/
theorem pyUnquote_no_pct (l : List Char) (h : '%' ∉ l) : pyUnquote l = l := by
  rw [pyUnquote, uqTokens, uqTokensF_no_pct l l.length (Nat.le_refl _) h]
  exact decodeToks_plain l _ (by simp)

/-! ## C7 helper lemmas: `strip` -/

theorem dropWhile_all_neg (p : Char → Bool) (l : List Char)
    (h : ∀ c ∈ l, p c = false) : l.dropWhile p = l := by
  induction l with
  | nil => rfl
  | cons c rest ih =>
    rw [List.dropWhile_cons, h c (List.mem_cons_self c rest)]
    simp

theorem dropWhile_head_neg (p : Char → Bool) (l : List Char) :
    l.dropWhile p = [] ∨
      ∃ c rest, l.dropWhile p = c :: rest ∧ p c = false := by
  induction l with
  | nil => exact Or.inl rfl
  | cons c rest ih =>
    rw [List.dropWhile_cons]
    by_cases h : p c = true
    · simpa [h] using ih
    · exact Or.inr ⟨c, rest, by simp [h], by simpa using h⟩

theorem dropWhile_self_dropWhile (p : Char → Bool) (l : List Char) :
    (l.dropWhile p).dropWhile p = l.dropWhile p := by
  rcases dropWhile_head_neg p l with h | ⟨c, rest, h, hc⟩
  · rw [h]
    rfl
  · rw [h, List.dropWhile_cons, hc]
    simp

theorem mem_pyStripP (p : Char → Bool) (l : List Char) (x : Char)
    (h : x ∈ pyStripP p l) : x ∈ l := by
  rw [pyStripP, List.mem_reverse] at h
  have h2 := ((l.dropWhile p).reverse.dropWhile_suffix p).subset h
  rw [List.mem_reverse] at h2
  exact (l.dropWhile_suffix p).subset h2

theorem pyStripP_all_neg (p : Char → Bool) (l : List Char)
    (h : ∀ c ∈ l, p c = false) : pyStripP p l = l := by
  rw [pyStripP, dropWhile_all_neg p l h,
    dropWhile_all_neg p l.reverse (fun c hc => h c (List.mem_reverse.mp hc)),
    List.reverse_reverse]

theorem pyStripP_idem (p : Char → Bool) (l : List Char) :
    pyStripP p (pyStripP p l) = pyStripP p l := by
  rw [pyStripP, pyStripP]
  have h1 : (((l.dropWhile p).reverse.dropWhile p).reverse).dropWhile p =
      ((l.dropWhile p).reverse.dropWhile p).reverse := by
    cases hR : ((l.dropWhile p).reverse.dropWhile p).reverse with
    | nil => rfl
    | cons c t =>
      have hpre : (c :: t) <+: l.dropWhile p := by
        have h0 : (((l.dropWhile p).reverse.dropWhile p).reverse) <+:
            ((l.dropWhile p).reverse.reverse) :=
          List.reverse_prefix.mpr (List.dropWhile_suffix p)
        rw [List.reverse_reverse, hR] at h0
        exact h0
      rcases dropWhile_head_neg p l with h | ⟨c0, r0, h, hc0⟩
      · rw [h] at hpre
        have := hpre.length_le
        simp at this
      · rw [h] at hpre
        obtain ⟨s, hs⟩ := hpre
        rw [List.cons_append] at hs
        have hcc : c = c0 := (List.cons.injEq _ _ _ _ ▸ hs).1
        rw [List.dropWhile_cons, hcc, hc0]
        simp
  rw [h1, List.reverse_reverse, dropWhile_self_dropWhile]

/-! ## C7 helper lemmas: the host-pattern search -/

theorem igLit_not_prefix_of_ne :
    ∀ s w s' w' : Bool, ¬(s = s' ∧ w = w') →
      (igLit s w).isPrefixOf (igLit s' w') = false := by
  decide

theorem igLit_prefix_unique (x : List Char) (s w s' w' : Bool)
    (h1 : igLit s w <+: x) (h2 : igLit s' w' <+: x) : s = s' ∧ w = w' := by
  by_cases he : s = s' ∧ w = w'
  · exact he
  · exfalso
    rcases List.prefix_or_prefix_of_prefix h1 h2 with h | h
    · have := List.isPrefixOf_iff_prefix.mpr h
      rw [igLit_not_prefix_of_ne s w s' w' he] at this
      exact Bool.noConfusion this
    · have := List.isPrefixOf_iff_prefix.mpr h
      rw [igLit_not_prefix_of_ne s' w' s w (fun hx => he ⟨hx.1.symm, hx.2.symm⟩)] at this
      exact Bool.noConfusion this

theorem pySpace_lowerC (c : Char) (h : pySpace c = true) : lowerC c = c := by
  simp only [pySpace, Bool.or_eq_true, beq_iff_eq] at h
  rcases h with ((((rfl | rfl) | rfl) | rfl) | rfl) | rfl <;> decide

theorem igLit_no_space (s w : Bool) (c : Char) (hc : c ∈ igLit s w) :
    pySpace c = false := by
  have h : (igLit s w).all (fun c => !pySpace c) = true := by
    cases s <;> cases w <;> decide
  simpa using List.all_eq_true.mp h c hc

theorem hostPatternLen_inv (l : List Char) (k : Nat)
    (h : hostPatternLen l = some k) :
    ∃ s w, igLit s w <+: pyLower l ∧ k = (igLit s w).length := by
  simp only [hostPatternLen] at h
  split_ifs at h with h1 h2 h3 h4
  · exact ⟨true, true, List.isPrefixOf_iff_prefix.mp h1, (Option.some.injEq _ _ ▸ h).symm⟩
  · exact ⟨true, false, List.isPrefixOf_iff_prefix.mp h2, (Option.some.injEq _ _ ▸ h).symm⟩
  · exact ⟨false, true, List.isPrefixOf_iff_prefix.mp h3, (Option.some.injEq _ _ ▸ h).symm⟩
  · exact ⟨false, false, List.isPrefixOf_iff_prefix.mp h4, (Option.some.injEq _ _ ▸ h).symm⟩

theorem hostPatternLen_of_lit (l : List Char) (s w : Bool)
    (h : igLit s w <+: pyLower l) :
    hostPatternLen l = some (igLit s w).length := by
  simp only [hostPatternLen]
  split_ifs with h1 h2 h3 h4
  · obtain ⟨hs, hw⟩ := igLit_prefix_unique (pyLower l) s w true true h
      (List.isPrefixOf_iff_prefix.mp h1)
    subst hs; subst hw; rfl
  · obtain ⟨hs, hw⟩ := igLit_prefix_unique (pyLower l) s w true false h
      (List.isPrefixOf_iff_prefix.mp h2)
    subst hs; subst hw; rfl
  · obtain ⟨hs, hw⟩ := igLit_prefix_unique (pyLower l) s w false true h
      (List.isPrefixOf_iff_prefix.mp h3)
    subst hs; subst hw; rfl
  · obtain ⟨hs, hw⟩ := igLit_prefix_unique (pyLower l) s w false false h
      (List.isPrefixOf_iff_prefix.mp h4)
    subst hs; subst hw; rfl
  · exfalso
    cases s <;> cases w
    · exact h4 (List.isPrefixOf_iff_prefix.mpr h)
    · exact h3 (List.isPrefixOf_iff_prefix.mpr h)
    · exact h2 (List.isPrefixOf_iff_prefix.mpr h)
    · exact h1 (List.isPrefixOf_iff_prefix.mpr h)

theorem pyLower_length (l : List Char) : (pyLower l).length = l.length := by
  rw [pyLower, List.length_map]

theorem pyLower_take (k : Nat) (l : List Char) :
    pyLower (l.take k) = (pyLower l).take k := by
  rw [pyLower, pyLower, List.map_take]

theorem pyLower_append (a b : List Char) :
    pyLower (a ++ b) = pyLower a ++ pyLower b := by
  rw [pyLower, pyLower, pyLower, List.map_append]

theorem takeWhile_all_pos (p : Char → Bool) (l : List Char)
    (h : ∀ c ∈ l, p c = true) : l.takeWhile p = l := by
  induction l with
  | nil => rfl
  | cons c rest ih =>
    rw [List.takeWhile_cons, h c (List.mem_cons_self c rest), if_pos rfl]
    exact congrArg _ (ih fun x hx => h x (List.mem_cons_of_mem c hx))

/-- A successful anchored match is a fixed point of the anchored match: it
still starts with the host pattern, and its tail is a maximal run of
non-whitespace characters. -/
theorem igMatchAt_inv (l m : List Char) (h : igMatchAt l = some m) :
    igMatchAt m = some m ∧ (∀ c ∈ m, pySpace c = false) ∧ m ≠ [] ∧ m ⊆ l := by
  rw [igMatchAt] at h
  cases hk : hostPatternLen l with
  | none => rw [hk] at h; exact Option.noConfusion h
  | some k =>
    rw [hk] at h
    simp only [] at h
    by_cases hr : (l.drop k).takeWhile (fun c => !pySpace c) = []
    · rw [if_pos hr] at h
      exact Option.noConfusion h
    · rw [if_neg hr] at h
      injection h with h
      obtain ⟨s, w, hpre, hkeq⟩ := hostPatternLen_inv l k hk
      have hklen : k ≤ l.length := by
        have := hpre.length_le
        rw [pyLower_length] at this
        omega
      have hlit : igLit s w = (pyLower l).take k := by
        have := List.prefix_iff_eq_take.mp hpre
        rw [← hkeq] at this
        exact this
      have hmapt : pyLower (l.take k) = igLit s w := by
        rw [pyLower_take, ← hlit]
      have htlen : (l.take k).length = k := by
        rw [List.length_take]
        omega
      have hnospace : ∀ c ∈ m, pySpace c = false := by
        intro c hc
        rw [← h] at hc
        rcases List.mem_append.mp hc with hc | hc
        · by_cases hspc : pySpace c = true
          · have hmem : lowerC c ∈ pyLower (l.take k) :=
              List.mem_map_of_mem lowerC hc
            rw [hmapt, pySpace_lowerC c hspc] at hmem
            have := igLit_no_space s w c hmem
            rw [hspc] at this
            exact Bool.noConfusion this
          · exact Bool.eq_false_iff.mpr hspc
        · have := List.mem_takeWhile_imp hc
          simpa using this
      have hmne : m ≠ [] := by
        rw [← h]
        intro hnil
        exact hr (List.append_eq_nil.mp hnil).2
      have hsub : m ⊆ l := by
        rw [← h]
        intro x hx
        rcases List.mem_append.mp hx with hx | hx
        · exact (List.take_subset k l) hx
        · exact (List.drop_subset k l) (List.IsPrefix.subset (List.takeWhile_prefix _) hx)
      have hself : igMatchAt m = some m := by
        have hk2 : hostPatternLen m = some k := by
          have hpre2 : igLit s w <+: pyLower m := by
            rw [← h, pyLower_append, hmapt]
            exact List.prefix_append _ _
          rw [hostPatternLen_of_lit m s w hpre2, hkeq]
        rw [igMatchAt, hk2]
        simp only []
        have hdrop : m.drop k = (l.drop k).takeWhile (fun c => !pySpace c) := by
          rw [← h, List.drop_left' htlen]
        have htake : m.take k = l.take k := by
          rw [← h, List.take_left' htlen]
        rw [hdrop, takeWhile_all_pos _ _ (fun x hx => List.mem_takeWhile_imp hx),
          if_neg hr, htake, h]
      exact ⟨hself, hnospace, hmne, hsub⟩

theorem igSearch_some_inv (l m : List Char) (h : igSearch l = some m) :
    ∃ l2, l2 <:+ l ∧ igMatchAt l2 = some m := by
  induction l with
  | nil => exact absurd h (by rw [igSearch]; exact fun hx => Option.noConfusion hx)
  | cons c rest ih =>
    rw [igSearch] at h
    cases hm : igMatchAt (c :: rest) with
    | some m2 =>
      rw [hm] at h
      simp only [] at h
      injection h with h
      exact ⟨c :: rest, List.suffix_refl _, h ▸ hm⟩
    | none =>
      rw [hm] at h
      simp only [] at h
      obtain ⟨l2, hs, hmat⟩ := ih h
      exact ⟨l2, hs.trans (List.suffix_cons c rest), hmat⟩

theorem igSearch_of_self (m : List Char) (hne : m ≠ [])
    (h : igMatchAt m = some m) : igSearch m = some m := by
  cases m with
  | nil => exact absurd rfl hne
  | cons c t =>
    rw [igSearch, h]

/-! ## C7 -/

/-- C7 counterexample: normalization is not idempotent on valid URLs.
`%2541` percent-decodes to `%41`, which is itself a further escape:
normalizing the (valid, already-normalized) output changes it again. -/
theorem C7_counterexample :
    normalizeStr "https://instagram.com/p/%2541" = "https://instagram.com/p/%41" ∧
    isValidStr "https://instagram.com/p/%41" = true ∧
    normalizeStr "https://instagram.com/p/%41" ≠ "https://instagram.com/p/%41" := by
  decide

/-- C7 (amended): the normalizer is a total function (it is defined for
every input and never raises by construction), and it is idempotent on
every input containing no percent sign; on inputs with decodable percent
escapes a second application can decode further, as the counterexample
shows. -/
theorem C7_normalize_idempotent_no_pct (l : List Char) (h : '%' ∉ l) :
    normalize_instagram_input (normalize_instagram_input l) =
      normalize_instagram_input l := by
  have hsl : '%' ∉ pyStrip l := fun hc => h (mem_pyStripP pySpace l '%' hc)
  have hcand : pyUnquote (pyStrip l) = pyStrip l := pyUnquote_no_pct _ hsl
  cases hs : igSearch (pyUnquote (pyStrip l)) with
  | some m =>
    have hN : normalize_instagram_input l = m := by
      rw [normalize_instagram_input, hs]
    rw [hcand] at hs
    obtain ⟨l2, hsuf, hmat⟩ := igSearch_some_inv _ _ hs
    obtain ⟨hself, hnospace, hmne, hsub⟩ := igMatchAt_inv l2 m hmat
    have hpm : '%' ∉ m := fun hc => hsl (hsuf.subset (hsub hc))
    have hstripm : pyStrip m = m :=
      pyStripP_all_neg pySpace m fun c hc => hnospace c hc
    have huqm : pyUnquote m = m := pyUnquote_no_pct _ hpm
    rw [hN, normalize_instagram_input, hstripm, huqm,
      igSearch_of_self m hmne hself]
  | none =>
    rw [hcand] at hs
    have hN : normalize_instagram_input l = pyStrip l := by
      rw [normalize_instagram_input, hcand, hs]
    have hss : pyStrip (pyStrip l) = pyStrip l := pyStripP_idem pySpace l
    have huq2 : pyUnquote (pyStrip (pyStrip l)) = pyStrip l := by
      rw [hss]
      exact pyUnquote_no_pct _ hsl
    rw [hN, normalize_instagram_input, huq2, hs]

/-- C7 witness: idempotence at a concrete percent-free URL. -/
theorem C7_witness :
    ('%' ∉ "  https://www.instagram.com/reel/xyz ".data) ∧
    normalize_instagram_input
        (normalize_instagram_input "  https://www.instagram.com/reel/xyz ".data) =
      normalize_instagram_input "  https://www.instagram.com/reel/xyz ".data :=
  ⟨by decide,
    C7_normalize_idempotent_no_pct "  https://www.instagram.com/reel/xyz ".data (by decide)⟩

/-! ## C9 -/

theorem contains_append (a b : List Char) (x : Char) :
    (a ++ b).contains x = (a.contains x || b.contains x) := by
  induction a with
  | nil => rfl
  | cons c rest ih => simp [List.contains_cons, ih, Bool.or_assoc]

/-- C9: the catch-all handler invokes the common pipeline on the
reconstructed URL with the `delivery` query parameter; when the
percent-decoded, trimmed path lacks an `http://`/`https://` scheme,
`https://` is prepended; and the original query string is re-attached
exactly when it is non-empty and the reconstructed URL contains no `?`
(the prepended scheme contributes no `?`, so the check reduces to the
decoded path). -/
theorem C9_direct_path_reconstruction (env : Env) (target query : String)
    (delivery : Option String) :
    (download_instagram_media_direct_path env target query delivery =
      download_and_respond env (buildDirectUrl target query) delivery) ∧
    (("http://".data.isPrefixOf (pyUnquote (pyStrip target.data)) ||
        "https://".data.isPrefixOf (pyUnquote (pyStrip target.data))) = false →
      (buildDirectUrl target query).data =
        "https://".data ++ pyUnquote (pyStrip target.data) ++
          (if (query != "" && !((pyUnquote (pyStrip target.data)).contains '?')) = true
           then '?' :: query.data else [])) ∧
    (("http://".data.isPrefixOf (pyUnquote (pyStrip target.data)) ||
        "https://".data.isPrefixOf (pyUnquote (pyStrip target.data))) = true →
      (buildDirectUrl target query).data =
        pyUnquote (pyStrip target.data) ++
          (if (query != "" && !((pyUnquote (pyStrip target.data)).contains '?')) = true
           then '?' :: query.data else [])) := by
  refine ⟨rfl, fun hns => ?_, fun hsch => ?_⟩
  · rw [buildDirectUrl]
    simp only [hns, Bool.false_eq_true, if_false]
    have h8 : "https://".data.contains '?' = false := by decide
    rw [contains_append, h8, Bool.false_or]
    by_cases hb :
        (query != "" && !((pyUnquote (pyStrip target.data)).contains '?')) = true
    · rw [if_pos hb, if_pos hb, List.append_assoc]
    · rw [if_neg hb, if_neg hb, List.append_nil]
  · rw [buildDirectUrl]
    simp only [hsch, if_true]
    by_cases hb :
        (query != "" && !((pyUnquote (pyStrip target.data)).contains '?')) = true
    · rw [if_pos hb, if_pos hb]
    · rw [if_neg hb, if_neg hb, List.append_nil]

/-- C9 witness: reconstruction at a concrete scheme-less path with a query
string. -/
theorem C9_witness :
    ("http://".data.isPrefixOf (pyUnquote (pyStrip "instagram.com/p/x".data)) ||
      "https://".data.isPrefixOf (pyUnquote (pyStrip "instagram.com/p/x".data))) = false ∧
    (buildDirectUrl "instagram.com/p/x" "delivery=link").data =
      "https://instagram.com/p/x?delivery=link".data :=
  ⟨by decide, by
    have h := (C9_direct_path_reconstruction sampleEnv "instagram.com/p/x"
      "delivery=link" none).2.1 (by decide)
    exact h.trans (by decide)⟩

end IGDL
